import Mathlib

/-!
Verification of the data-normalization pipeline of the stock-dashboard
service (`stockService` and its private helpers `_isDateColumn`,
`_getNumericValue`, `_parseDateStringForSorting`, `_findRevenueRow`,
`_processRevenueCardData`, `_extractHistoricalData`,
`getCompanyDashboardData`).

The JavaScript source is shallowly embedded:
* JS numbers are modelled by `JsNum`: an exact rational together with the
  IEEE special values `inf`, `negInf` and `nan`.  Binary-float rounding
  and overflow are abstracted away (values are kept exact); none of the
  verified properties depends on the low bits of a float.  The JS values
  `0` and `-0` are collapsed to `fin 0` (they are `===`-equal and never
  distinguished on the code paths in scope).
* JS cell values are modelled by `JsValue` (string, number, boolean,
  null, undefined; objects/arrays never occur as cell values in scope).
* A sheet row is an association list from column header to cell value
  (rows are JSON objects, so keys are assumed distinct; lookup takes the
  first binding).
* Dates are modelled by `JsDate`: either an invalid date (a NaN time
  value) or a valid date identified by its day count since the Unix
  epoch.  All dates built by the code lie on day boundaries, so a day
  count is an exact model of the time value for ordering purposes.  The
  host environment's local time zone is taken to be UTC.
* The locale-dependent formatters (`toLocaleString("de-DE")`,
  `toFixed(2)`) are reproduced digit by digit over exact rationals with
  round-half-up; float double-rounding artifacts are abstracted away.
  No verified property inspects those digits.
-/

/-!
Rational arithmetic.  Batteries marks `Rat.add`, `Rat.sub`, `Rat.mul` and
`Rat.inv` `@[irreducible]`, which blocks `decide`-style evaluation of the
embedded functions on concrete inputs.  The wrappers below compute the
same operations through the reducible smart constructor `Rat.divInt` and
are proved equal to the standard operations, so the embedding stays both
executable and mathematically standard.
-/

/-- Multiplication on `ℚ` through `Rat.divInt` (kernel-reducible). -/
def qMul (a b : ℚ) : ℚ := Rat.divInt (a.num * b.num) ((a.den : Int) * (b.den : Int))

/-- Addition on `ℚ` through `Rat.divInt` (kernel-reducible). -/
def qAdd (a b : ℚ) : ℚ :=
  Rat.divInt (a.num * (b.den : Int) + b.num * (a.den : Int)) ((a.den : Int) * (b.den : Int))

/-- Subtraction on `ℚ` through `Rat.divInt` (kernel-reducible). -/
def qSub (a b : ℚ) : ℚ :=
  Rat.divInt (a.num * (b.den : Int) - b.num * (a.den : Int)) ((a.den : Int) * (b.den : Int))

/-- Division on `ℚ` through `Rat.divInt` (kernel-reducible; division by
zero yields zero, as does `/` on `ℚ`). -/
def qDiv (a b : ℚ) : ℚ := Rat.divInt (a.num * (b.den : Int)) ((a.den : Int) * b.num)

theorem qMul_eq (a b : ℚ) : qMul a b = a * b := by
  conv_rhs => rw [← Rat.num_divInt_den a, ← Rat.num_divInt_den b,
    Rat.divInt_mul_divInt _ _ (Int.ofNat_ne_zero.mpr a.den_nz) (Int.ofNat_ne_zero.mpr b.den_nz)]
  rfl

theorem qAdd_eq (a b : ℚ) : qAdd a b = a + b := by
  conv_rhs => rw [← Rat.num_divInt_den a, ← Rat.num_divInt_den b,
    Rat.divInt_add_divInt _ _ (Int.ofNat_ne_zero.mpr a.den_nz) (Int.ofNat_ne_zero.mpr b.den_nz)]
  rfl

theorem qSub_eq (a b : ℚ) : qSub a b = a - b := by
  conv_rhs => rw [← Rat.num_divInt_den a, ← Rat.num_divInt_den b,
    Rat.divInt_sub_divInt _ _ (Int.ofNat_ne_zero.mpr a.den_nz) (Int.ofNat_ne_zero.mpr b.den_nz)]
  rfl

theorem qDiv_eq (a b : ℚ) : qDiv a b = a / b := by
  conv_rhs => rw [← Rat.num_divInt_den a, ← Rat.num_divInt_den b, Rat.divInt_div_divInt]
  rfl

/-- A JavaScript number: exact rational plus the IEEE special values. -/
inductive JsNum where
  | fin (q : ℚ)
  | inf
  | negInf
  | nan
deriving DecidableEq, Repr

/-- A JavaScript cell value as it can appear in a parsed JSON row. -/
inductive JsValue where
  | vStr (s : String)
  | vNum (n : JsNum)
  | vBool (b : Bool)
  | vNull
  | vUndef
deriving DecidableEq, Repr

/-- A sheet row: a JSON object, as an association list in key insertion
order. -/
def Row : Type := List (String × JsValue)

instance : DecidableEq Row := by unfold Row; infer_instance

/-- Property lookup `row[key]`: the first binding, `undefined` if absent. -/
def rowGet : Row → String → JsValue
  | [], _ => .vUndef
  | (k, v) :: rest, key => if k = key then v else rowGet rest key

/-- The keys of a row, in insertion order (`Object.keys(row)`; none of the
keys in scope is an integer index, so insertion order is iteration order). -/
def rowKeys (r : Row) : List String := r.map Prod.fst

/-- The values of a row, in insertion order (`Object.values(row)`). -/
def rowValues (r : Row) : List JsValue := r.map Prod.snd

/-- JS truthiness of a cell value: `""`, `0`, `NaN`, `false`, `null` and
`undefined` are falsy. -/
def jsTruthy : JsValue → Bool
  | .vStr s => !(s = "")
  | .vNum n => !(n = .fin 0) && !(n = .nan)
  | .vBool b => b
  | .vNull => false
  | .vUndef => false

/-- Logical-or on cell values as JS `a || b` evaluates it. -/
def jsOr (a b : JsValue) : JsValue := if jsTruthy a then a else b

/-- The white-space characters recognized by `String.prototype.trim` and by
`parseFloat` (the ASCII ones plus NBSP and the BOM; the exotic Unicode
spaces do not occur in sheet data). -/
def isJsSpace (c : Char) : Bool :=
  c = ' ' || c = '\t' || c = '\n' || c = '\r' || c = '\x0b' || c = '\x0c' ||
  c = ' ' || c = '﻿'

/-- JS `String.prototype.trim`. -/
def jsTrimStr (s : String) : String :=
  ⟨((s.data.dropWhile isJsSpace).reverse.dropWhile isJsSpace).reverse⟩

/-- An ASCII decimal digit, the character class `\d`. -/
def isDigitChar (c : Char) : Bool := '0' ≤ c && c ≤ '9'

/-- An ASCII letter, the character class `[A-Za-z]`. -/
def isAsciiLetter (c : Char) : Bool :=
  ('A' ≤ c && c ≤ 'Z') || ('a' ≤ c && c ≤ 'z')

/-- Numeric value of a list of decimal digit characters (`parseInt` on an
all-digit string). -/
def digitsVal (l : List Char) : Nat :=
  l.foldl (fun a c => a * 10 + (c.toNat - '0'.toNat)) 0

/-- The exponent part of a JS decimal literal: `e`/`E`, an optional sign
and at least one digit.  An absent or incomplete exponent contributes
factor exponent 0 (`parseFloat` stops before it). -/
def expPartVal (l : List Char) : Int :=
  match l with
  | 'e' :: rest =>
    (match rest with
     | '+' :: ds => if (ds.takeWhile isDigitChar) = [] then 0 else (digitsVal (ds.takeWhile isDigitChar) : Int)
     | '-' :: ds => if (ds.takeWhile isDigitChar) = [] then 0 else -(digitsVal (ds.takeWhile isDigitChar) : Int)
     | ds => if (ds.takeWhile isDigitChar) = [] then 0 else (digitsVal (ds.takeWhile isDigitChar) : Int))
  | 'E' :: rest =>
    (match rest with
     | '+' :: ds => if (ds.takeWhile isDigitChar) = [] then 0 else (digitsVal (ds.takeWhile isDigitChar) : Int)
     | '-' :: ds => if (ds.takeWhile isDigitChar) = [] then 0 else -(digitsVal (ds.takeWhile isDigitChar) : Int)
     | ds => if (ds.takeWhile isDigitChar) = [] then 0 else (digitsVal (ds.takeWhile isDigitChar) : Int))
  | _ => 0

/-- Ten to an integer power, as a rational, computed through `Nat.pow` so
that kernel reduction (and hence `decide`) goes through. -/
def powTenQ : Int → ℚ
  | .ofNat n => ((10 ^ n : Nat) : ℚ)
  | .negSucc n => mkRat 1 (10 ^ (n + 1))

/-- The longest valid unsigned decimal-literal prefix of `l`, as an exact
rational: `digits [ "." digits* ] [exp]` or `"." digits+ [exp]`; `none`
when no such prefix exists. -/
def parseDecimalValue (l : List Char) : Option ℚ :=
  let ip := l.takeWhile isDigitChar
  let r1 := l.dropWhile isDigitChar
  match ip with
  | [] =>
    (match r1 with
     | '.' :: r2 =>
       let fp := r2.takeWhile isDigitChar
       if fp = [] then none
       else
         let r3 := r2.dropWhile isDigitChar
         some (qMul (qDiv (digitsVal fp : ℚ) (powTenQ fp.length)) (powTenQ (expPartVal r3)))
     | _ => none)
  | _ =>
    (match r1 with
     | '.' :: r2 =>
       let fp := r2.takeWhile isDigitChar
       let r3 := r2.dropWhile isDigitChar
       some (qMul (qAdd (digitsVal ip : ℚ) (qDiv (digitsVal fp : ℚ) (powTenQ fp.length)))
         (powTenQ (expPartVal r3)))
     | _ => some (qMul (digitsVal ip : ℚ) (powTenQ (expPartVal r1))))

/-- The body of `parseFloat` once a sign has been consumed: the literal
`Infinity` or a decimal literal; `nan` when neither is present. -/
def parseFloatBody (neg : Bool) (l : List Char) : JsNum :=
  if l.take 8 = "Infinity".data then (if neg then .negInf else .inf)
  else
    match parseDecimalValue l with
    | some q => .fin (if neg then -q else q)
    | none => .nan

/-- JS `parseFloat`: skip leading white space, an optional sign, then the
longest valid prefix (`Infinity` or a decimal literal); `NaN` when no
valid prefix exists.  Exact-rational semantics: the mathematical value of
the literal is kept (no float rounding, no overflow to infinity). -/
def jsParseFloat (s : String) : JsNum :=
  match s.data.dropWhile isJsSpace with
  | '+' :: r => parseFloatBody false r
  | '-' :: r => parseFloatBody true r
  | r => parseFloatBody false r

/-- JS strict comparison `a > b` on numbers (`false` whenever NaN is
involved). -/
def jsGt : JsNum → JsNum → Bool
  | .nan, _ => false
  | _, .nan => false
  | .inf, .inf => false
  | .inf, _ => true
  | .negInf, _ => false
  | .fin _, .inf => false
  | .fin _, .negInf => true
  | .fin p, .fin q => q < p

/-- JS strict comparison `a < b` on numbers. -/
def jsLt (a b : JsNum) : Bool := jsGt b a

/-- JS subtraction on numbers (IEEE special-value rules, exact on finite
values). -/
def jsSub : JsNum → JsNum → JsNum
  | .nan, _ => .nan
  | _, .nan => .nan
  | .inf, .inf => .nan
  | .inf, _ => .inf
  | .negInf, .negInf => .nan
  | .negInf, _ => .negInf
  | .fin _, .inf => .negInf
  | .fin _, .negInf => .inf
  | .fin a, .fin b => .fin (qSub a b)

/-- JS division on numbers (IEEE special-value rules; the zero divisor is
treated as `+0`, `-0` having been collapsed into it). -/
def jsDiv : JsNum → JsNum → JsNum
  | .nan, _ => .nan
  | _, .nan => .nan
  | .inf, .inf => .nan
  | .inf, .negInf => .nan
  | .negInf, .inf => .nan
  | .negInf, .negInf => .nan
  | .inf, .fin b => if 0 ≤ b then .inf else .negInf
  | .negInf, .fin b => if 0 ≤ b then .negInf else .inf
  | .fin _, .inf => .fin 0
  | .fin _, .negInf => .fin 0
  | .fin a, .fin b =>
    if b = 0 then (if a = 0 then .nan else if 0 < a then .inf else .negInf)
    else .fin (qDiv a b)

/-- Division by 100 as applied to a non-NaN `parseFloat` result in the
percent branch of `_getNumericValue`. -/
def jsDivBy100 : JsNum → JsNum
  | .fin q => .fin (qDiv q 100)
  | x => x

/-- Remove every comma: `value.replace(/,/g, "")`. -/
def stripCommas (s : String) : String := ⟨s.data.filter (fun c => !(c = ','))⟩

/-- Whether the string ends with `%` (`cleanValue.endsWith("%")`). -/
def endsWithPercentSign (s : String) : Bool := s.data.getLast? = some '%'

/-- Remove the first occurrence of `%`: `cleanValue.replace("%", "")` with
a plain-string pattern replaces only the first match. -/
def removeFirstPercentSign (s : String) : String :=
  ⟨(s.data.takeWhile (fun c => !(c = '%'))) ++ (s.data.dropWhile (fun c => !(c = '%'))).drop 1⟩

/-- Whether the string is wrapped in parentheses
(`startsWith("(") && endsWith(")")`). -/
def wrappedInParens (s : String) : Bool :=
  s.data.head? = some '(' && s.data.getLast? = some ')'

/-- Replace the parentheses wrapper by a leading minus sign:
`"-" + cleanValue.substring(1, cleanValue.length - 1)`. -/
def parensToMinus (s : String) : String := ⟨'-' :: (s.data.drop 1).dropLast⟩

/-- The percent branch of `_getNumericValue`: drop the first `%`, parse as
float, divide by 100; `null` when the remainder does not parse. -/
def percentBranchParse (clean : String) : Option JsNum :=
  let parsed := jsParseFloat (removeFirstPercentSign clean)
  if parsed = .nan then none else some (jsDivBy100 parsed)

/-- The non-percent tail of `_getNumericValue`: undo a parentheses wrapper
into a minus sign, then parse as float; `null` when parsing fails. -/
def parenOrPlainParse (clean : String) : Option JsNum :=
  let cleanValue := if wrappedInParens clean then parensToMinus clean else clean
  let parsed := jsParseFloat cleanValue
  if parsed = .nan then none else some parsed

/-- The numeric-cell parser `_getNumericValue`: strings are comma-stripped
and then parsed through the percent branch or the parenthesized-negative /
plain branch; numbers are returned unchanged; every other type yields
`null`. -/
def _getNumericValue : JsValue → Option JsNum
  | .vStr s =>
    let clean := stripCommas s
    if endsWithPercentSign clean then percentBranchParse clean
    else parenOrPlainParse clean
  | .vNum n => some n
  | _ => none

example : _getNumericValue (.vStr "1,234") = some (.fin 1234) := by decide
example : _getNumericValue (.vStr "12%") = some (.fin (mkRat 3 25)) := by decide
example : _getNumericValue (.vStr "(50)") = some (.fin (-50)) := by decide
example : _getNumericValue (.vStr "abc") = none := by decide
example : _getNumericValue (.vNum (.fin 42)) = some (.fin 42) := by decide
example : _getNumericValue (.vStr "3.5e2") = some (.fin 350) := by decide
example : _getNumericValue (.vStr " Infinity") = some .inf := by decide
example : _getNumericValue (.vStr "12.5%") = some (.fin (mkRat 1 8)) := by decide

/-!
Dates.  `_parseDateStringForSorting` builds JS `Date` objects three ways:
`new Date("YYYY-MM-DD")` (an ISO date, UTC midnight, invalid when the
month or day is out of range), `new Date(year, monthIndex, day)` (local
midnight, with day overflow normalized into later months/years) and
`new Date(0)` (the epoch sentinel).  With the host's local time zone
taken as UTC all of these lie on UTC day boundaries, so a `Date` is
modelled as its day count since 1970-01-01, or as the invalid date
(whose time value and `getFullYear()` are NaN).
-/

/-- A JS `Date`: invalid (NaN time value) or a day count since the epoch. -/
inductive JsDate where
  | invalid
  | valid (days : Int)
deriving DecidableEq, Repr

/-- Day count since 1970-01-01 of the civil date `(y, m, d)` (proleptic
Gregorian, `m` in 1..12; Howard Hinnant's `days_from_civil`). -/
def daysFromCivil (y : Int) (m : Nat) (d : Nat) : Int :=
  let yy : Int := if m ≤ 2 then y - 1 else y
  let era : Int := yy.fdiv 400
  let yoe : Nat := (yy - era * 400).toNat
  let mp : Nat := if 2 < m then m - 3 else m + 9
  let doy : Nat := (153 * mp + 2) / 5 + d - 1
  let doe : Nat := yoe * 365 + yoe / 4 - yoe / 100 + doy
  era * 146097 + (doe : Int) - 719468

/-- Civil date `(year, month 1..12, day 1..31)` of a day count since the
epoch (Howard Hinnant's `civil_from_days`). -/
def civilFromDays (z0 : Int) : Int × Nat × Nat :=
  let z : Int := z0 + 719468
  let era : Int := z.fdiv 146097
  let doe : Nat := (z - era * 146097).toNat
  let yoe : Nat := (doe - doe / 1460 + doe / 36524 - doe / 146096) / 365
  let y : Int := (yoe : Int) + era * 400
  let doy : Nat := doe - (365 * yoe + yoe / 4 - yoe / 100)
  let mp : Nat := (5 * doy + 2) / 153
  let d : Nat := doy - (153 * mp + 2) / 5 + 1
  let m : Nat := if mp < 10 then mp + 3 else mp - 9
  (if m ≤ 2 then y + 1 else y, m, d)

example : daysFromCivil 1970 1 1 = 0 := by decide
example : civilFromDays 0 = (1970, 1, 1) := by decide
example : civilFromDays (daysFromCivil 2024 3 1) = (2024, 3, 1) := by decide
example : civilFromDays (daysFromCivil 2023 12 31) = (2023, 12, 31) := by decide
example : civilFromDays (daysFromCivil 2024 1 40) = (2024, 2, 9) := by decide

/-- JS `date.getFullYear()` (local = UTC): `none` models NaN. -/
def jsGetFullYear : JsDate → Option Int
  | .invalid => none
  | .valid z => some (civilFromDays z).1

/-- JS `date.getMonth()` (0-based; meaningful only for valid dates). -/
def jsGetMonth : JsDate → Nat
  | .invalid => 0
  | .valid z => (civilFromDays z).2.1 - 1

/-- JS date time value, in days (none models NaN). -/
def jsTimeValue : JsDate → Option Int
  | .invalid => none
  | .valid z => some z

/-- Number of days in a month of the proleptic Gregorian calendar. -/
def daysInMonth (y : Int) (m : Nat) : Nat :=
  if m = 2 then (if y % 4 = 0 && (y % 100 ≠ 0 || y % 400 = 0) then 29 else 28)
  else if m = 4 || m = 6 || m = 9 || m = 11 then 30
  else 31

/-- Shape test for `^\d{4}-\d{2}-\d{2}$`. -/
def isIsoDateShape (s : String) : Bool :=
  match s.data with
  | [a, b, c, d, '-', e, f, '-', g, h] =>
    isDigitChar a && isDigitChar b && isDigitChar c && isDigitChar d &&
    isDigitChar e && isDigitChar f && isDigitChar g && isDigitChar h
  | _ => false

/-- The `(year, month, day)` digits of a string of ISO shape (arbitrary
values when the shape test failed). -/
def isoFields (s : String) : Nat × Nat × Nat :=
  match s.data with
  | [a, b, c, d, '-', e, f, '-', g, h] =>
    (digitsVal [a, b, c, d], digitsVal [e, f], digitsVal [g, h])
  | _ => (0, 0, 0)

/-- JS `new Date("YYYY-MM-DD")`: UTC midnight of the given civil date,
invalid when month or day is out of range. -/
def parseIsoDate (s : String) : JsDate :=
  let f := isoFields s
  let y : Int := (f.1 : Int)
  let m := f.2.1
  let d := f.2.2
  if 1 ≤ m && m ≤ 12 && 1 ≤ d && d ≤ daysInMonth y m then
    .valid (daysFromCivil y m d)
  else .invalid

/-- JS `new Date(year, monthIndex, day)` with `monthIndex` in 0..11: day
overflow (day 0, or a day beyond the month's end) is normalized by
counting from the first of the month. -/
def dateFromComponents (year : Int) (monthIndex : Nat) (day : Nat) : JsDate :=
  .valid (daysFromCivil year (monthIndex + 1) 1 + (day : Int) - 1)

/-- Try to match `(\d{1,2}) ([A-Za-z]{3}) (\d{2,4})` anchored at the start
of `l`, with the day group taking `n` digits (the regex first tries 2,
then backtracks to 1); yields the three capture groups. -/
def matchDMYTail (n : Nat) (l : List Char) : Option (List Char × List Char × List Char) :=
  let ds := l.take n
  let r1 := l.drop n
  if ds.length = n && ds.all isDigitChar && r1.head? = some ' ' then
    let r2 := r1.tail
    let ms := r2.take 3
    if ms.length = 3 && ms.all isAsciiLetter && (r2.drop 3).head? = some ' ' then
      let r4 := (r2.drop 3).tail
      let ys := (r4.takeWhile isDigitChar).take 4
      if 2 ≤ ys.length then some (ds, ms, ys) else none
    else none
  else none

/-- Match `(\d{1,2}) ([A-Za-z]{3}) (\d{2,4})` anchored at the start of
`l`: the greedy two-digit day is tried first, then the one-digit day. -/
def matchDMYHere (l : List Char) : Option (List Char × List Char × List Char) :=
  match matchDMYTail 2 l with
  | some r => some r
  | none => matchDMYTail 1 l

/-- Unanchored leftmost match of `(\d{1,2}) ([A-Za-z]{3}) (\d{2,4})`
(`String.prototype.match` without the global flag): the first start
position, scanned left to right, at which the pattern matches. -/
def matchDMYFrom : List Char → Option (List Char × List Char × List Char)
  | [] => none
  | c :: rest =>
    match matchDMYHere (c :: rest) with
    | some r => some r
    | none => matchDMYFrom rest

/-- The capture groups of `dateStr.match(/(\d{1,2}) ([A-Za-z]{3}) (\d{2,4})/)`. -/
def matchDMY (s : String) : Option (String × String × String) :=
  (matchDMYFrom s.data).map (fun r => (⟨r.1⟩, ⟨r.2.1⟩, ⟨r.2.2⟩))

/-- The column-classifier `_isDateColumn`: an unanchored
`\d{1,2} [A-Za-z]{3} \d{2,4}` match or an exact `^\d{4}-\d{2}-\d{2}$`
match. -/
def _isDateColumn (key : String) : Bool :=
  (matchDMY key).isSome || isIsoDateShape key

/-- The month table of `_parseDateStringForSorting` (case-sensitive
lookup; any other three-letter token yields `undefined` and hence an
invalid date). -/
def monthLookup : String → Option Nat
  | "Jan" => some 0
  | "Feb" => some 1
  | "Mar" => some 2
  | "Apr" => some 3
  | "May" => some 4
  | "Jun" => some 5
  | "Jul" => some 6
  | "Aug" => some 7
  | "Sep" => some 8
  | "Oct" => some 9
  | "Nov" => some 10
  | "Dec" => some 11
  | _ => none

/-- The period-ordering parser `_parseDateStringForSorting`: ISO strings
via `new Date(str)`; else the day-month-year pattern via
`new Date(year, month, day)` (years below 100 get 2000 added, an unknown
month token gives an invalid date); else the epoch sentinel `new Date(0)`. -/
def _parseDateStringForSorting (dateStr : String) : JsDate :=
  if isIsoDateShape dateStr then parseIsoDate dateStr
  else
    match matchDMY dateStr with
    | some (ds, ms, ys) =>
      (match monthLookup ms with
       | some monthIndex =>
         let year0 := digitsVal ys.data
         let year : Int := if year0 < 100 then (year0 : Int) + 2000 else (year0 : Int)
         dateFromComponents year monthIndex (digitsVal ds.data)
       | none => .invalid)
    | none => .valid 0

example : _isDateColumn "31 Dec 23" = true := by decide
example : _isDateColumn "5 Jan 2024" = true := by decide
example : _isDateColumn "2024-01-05" = true := by decide
example : _isDateColumn "Release" = false := by decide
example : _isDateColumn "Q1" = false := by decide
example : _isDateColumn "" = false := by decide
example : _parseDateStringForSorting "2024-03-01" = .valid (daysFromCivil 2024 3 1) := by decide
example : _parseDateStringForSorting "1 Jan 24" = .valid (daysFromCivil 2024 1 1) := by decide
example : _parseDateStringForSorting "garbage" = .valid 0 := by decide
example : _parseDateStringForSorting "1 jan 24" = .invalid := by decide
example : _parseDateStringForSorting "2024-02-30" = .invalid := by decide
example : matchDMY "123 Jan 24" = some ("23", "Jan", "24") := by decide
example : matchDMY "31 Dec 2023x" = some ("31", "Dec", "2023") := by decide

/-!
Number display formatting.  `toLocaleString("de-DE")` and `toFixed(2)`
are reproduced over exact rationals ("." thousands grouping, ","
decimal separator, and the default at-most-3 fraction digits of
`toLocaleString`); the rounding of the binary float's decimal rendering
is abstracted to round-half-up on the exact value.  No verified property
inspects these digits — what matters below is only that a formatted
percentage always ends in `%` and hence never equals `"N/A"`.
-/

/-- Floor of a rational (reducible, unlike the `FloorRing` path). -/
def qFloor (q : ℚ) : Int := q.num.fdiv (q.den : Int)

/-- Round half up on an exact rational. -/
def jsRoundHalfUp (q : ℚ) : Int := qFloor (qAdd q (mkRat 1 2))

/-- Insert a `.` after every three digits, counting from the right
(`l` is the digit list least-significant first). -/
def groupRev : List Char → List Char
  | a :: b :: c :: d :: rest => a :: b :: c :: '.' :: groupRev (d :: rest)
  | l => l

/-- de-DE thousands grouping of a digit string. -/
def groupThousands (s : String) : String := ⟨(groupRev s.data.reverse).reverse⟩

/-- Three-digit zero padding. -/
def pad3 (n : Nat) : String :=
  if n < 10 then "00" ++ Nat.repr n else if n < 100 then "0" ++ Nat.repr n else Nat.repr n

/-- Two-digit zero padding. -/
def pad2 (n : Nat) : String := if n < 10 then "0" ++ Nat.repr n else Nat.repr n

/-- Drop trailing zeros of a fraction-digit string. -/
def stripZerosRight (s : String) : String := ⟨(s.data.reverse.dropWhile (fun c => c = '0')).reverse⟩

/-- `(q).toLocaleString("de-DE")` on a finite value. -/
def deDEFormatQ (q : ℚ) : String :=
  let m : Int := jsRoundHalfUp (qMul q 1000)
  let sign : String := if m < 0 then "-" else ""
  let a : Nat := m.natAbs
  let ipStr := groupThousands (Nat.repr (a / 1000))
  if a % 1000 = 0 then sign ++ ipStr
  else sign ++ ipStr ++ "," ++ stripZerosRight (pad3 (a % 1000))

/-- `(x).toLocaleString("de-DE")` on a JS number. -/
def jsToLocaleDeDE : JsNum → String
  | .fin q => deDEFormatQ q
  | .inf => "∞"
  | .negInf => "-∞"
  | .nan => "NaN"

/-- `(q).toFixed(2)` with the `.` already replaced by `,` (the source
does `.toFixed(2).replace(".", ",")`; the two steps are fused). -/
def toFixed2Comma (q : ℚ) : String :=
  let n : Int := jsRoundHalfUp (qMul q 100)
  let sign : String := if q < 0 then "-" else ""
  sign ++ Nat.repr (n.natAbs / 100) ++ "," ++ pad2 (n.natAbs % 100)

/-- The percentage string
`` `${(ratio * 100).toFixed(2).replace(".", ",")}%` `` (on the special
values `toFixed` yields `"Infinity"`, `"-Infinity"` or `"NaN"` and
`replace` finds no dot). -/
def pctStringOfRatio (x : JsNum) : String :=
  (match x with
   | .fin q => toFixed2Comma (qMul q 100)
   | .inf => "Infinity"
   | .negInf => "-Infinity"
   | .nan => "NaN") ++ "%"

example : deDEFormatQ 1234567 = "1.234.567" := by decide
example : deDEFormatQ (mkRat (-1234567) 100) = "-12.345,67" := by decide
example : pctStringOfRatio (.fin (mkRat 1 2)) = "50,00%" := by decide
example : pctStringOfRatio (.fin (mkRat (-1) 3)) = "-33,33%" := by decide

/-!
The revenue-row selector `_findRevenueRow`.  Rows of the JSON payload are
all objects here, so the `row && typeof row === "object"` guard of the
source is identically true in the model.
-/

/-- The row-label numeric candidate: `_getNumericValue(row[""])`. -/
def labelNumValue (r : Row) : Option JsNum := _getNumericValue (rowGet r "")

/-- `Object.keys(row).some(_isDateColumn)`. -/
def rowHasDateColumns (r : Row) : Bool := (rowKeys r).any _isDateColumn

/-- Eligibility of a row as a revenue candidate: its label parses, exceeds
100, and the row has at least one period column. -/
def eligibleRow (r : Row) : Bool :=
  match labelNumValue r with
  | some v => jsGt v (.fin 100) && rowHasDateColumns r
  | none => false

/-- The `isReleaseColIdentifying` disqualifier: the `"Release"` cell is a
string whose trimmed value is one of the four header markers. -/
def releaseColIdentifying (r : Row) : Bool :=
  match rowGet r "Release" with
  | .vStr s =>
    let t := jsTrimStr s
    t = "Quarter" || t = "Episode" || t = "Period" || t = "Metric"
  | _ => false

/-- A row that is eligible and not disqualified. -/
def goodRevenueCandidate (r : Row) : Bool := eligibleRow r && !releaseColIdentifying r

/-- The fold of `_findRevenueRow` over the rows, carrying `bestGuessRow`
and `maxRevenue` (initially `null` and `-1`). -/
def findRevenueRowAux : List Row → Option Row → JsNum → Option Row
  | [], bestGuessRow, _ => bestGuessRow
  | row :: rest, bestGuessRow, maxRevenue =>
    match labelNumValue row with
    | some numValue =>
      if jsGt numValue (.fin 100) && rowHasDateColumns row then
        (if jsGt numValue maxRevenue && !releaseColIdentifying row then
          findRevenueRowAux rest (some row) numValue
        else findRevenueRowAux rest bestGuessRow maxRevenue)
      else findRevenueRowAux rest bestGuessRow maxRevenue
    | none => findRevenueRowAux rest bestGuessRow maxRevenue

/-- The revenue-row selector `_findRevenueRow`. -/
def _findRevenueRow (data : List Row) : Option Row :=
  findRevenueRowAux data none (.fin (-1))

example :
    _findRevenueRow
      [[("", .vStr "50"), ("Release", .vStr "Quarter"), ("2024-01-01", .vStr "x")],
       [("", .vStr "200"), ("2024-01-01", .vStr "y")]] =
    some [("", .vStr "200"), ("2024-01-01", .vStr "y")] := by decide
example :
    _findRevenueRow
      [[("", .vStr "200"), ("Release", .vStr "Quarter"), ("2024-01-01", .vStr "x")],
       [("", .vStr "300"), ("2024-01-01", .vStr "y")]] =
    some [("", .vStr "300"), ("2024-01-01", .vStr "y")] := by decide

/-!
The card summarizer `_processRevenueCardData`.

In the source, `latestCol = allDateColumns[0]` and
`prevCol = allDateColumns[1]`.  When the array is empty `latestCol` is
`undefined`: `revenueRow[undefined]` reads the property key
`"undefined"`, `prevCol ? … : null` takes the null branch, and inside the
`try`, `/^…$/.test(undefined)` coerces to the string `"undefined"` (no
match) but `undefined.match(...)` throws a TypeError, so the `catch`
assigns `` revenueLabel = `Latest (${latestCol})` `` = `"Latest
(undefined)"`.  For a string `latestCol` the date parser is total and
never throws, so the `catch` is unreachable and `revenueLabel` keeps its
initial value `latestCol` unless the parsed year exceeds 1900.  A
non-empty `prevCol` check also means an empty-string second column (which
the assembler can never produce, `_isDateColumn "" = false`) takes the
null branch.
-/

/-- The card data record returned by `_processRevenueCardData` (and, in
degraded form, by the assembler). -/
structure CardData where
  revenue : String
  change : String
  percentageChange : String
  numericPercentageChange : Option JsNum
  revenueLabel : String
deriving DecidableEq, Repr

/-- The `change`/`percentageChange`/`numericPercentageChange` triple as
computed from the two parsed revenue values. -/
def changeTriple (latestRevenueVal previousRevenueVal : Option JsNum) :
    String × String × Option JsNum :=
  match latestRevenueVal, previousRevenueVal with
  | some lv, some pv =>
    let calculatedChange := jsSub lv pv
    let change := jsToLocaleDeDE calculatedChange
    if !(pv = JsNum.fin 0) then
      let ratio := jsDiv calculatedChange pv
      (change, pctStringOfRatio ratio, some ratio)
    else if jsGt calculatedChange (.fin 0) then (change, "Inf%", some .inf)
    else if jsLt calculatedChange (.fin 0) then (change, "-Inf%", some .negInf)
    else (change, "N/A", none)
  | _, _ => ("N/A", "N/A", none)

/-- The `revenueLabel` computation: quarter label when the parsed year
exceeds 1900 (NaN compares false), else the raw header. -/
def revenueLabelOf (latestCol : String) : String :=
  match jsGetFullYear (_parseDateStringForSorting latestCol) with
  | some y =>
    if 1900 < y then
      "Q" ++ Nat.repr (jsGetMonth (_parseDateStringForSorting latestCol) / 3 + 1) ++ " " ++ toString y
    else latestCol
  | none => latestCol

/-- The card summarizer `_processRevenueCardData`. -/
def _processRevenueCardData (revenueRow : Row) (allDateColumns : List String) : CardData :=
  match allDateColumns with
  | [] =>
    let latestRevenueVal := _getNumericValue (rowGet revenueRow "undefined")
    { revenue := match latestRevenueVal with | some v => jsToLocaleDeDE v | none => "N/A"
      change := "N/A"
      percentageChange := "N/A"
      numericPercentageChange := none
      revenueLabel := "Latest (undefined)" }
  | latestCol :: restCols =>
    let latestRevenueVal := _getNumericValue (rowGet revenueRow latestCol)
    let previousRevenueVal : Option JsNum :=
      match restCols.head? with
      | some prevCol => if prevCol = "" then none else _getNumericValue (rowGet revenueRow prevCol)
      | none => none
    let t := changeTriple latestRevenueVal previousRevenueVal
    { revenue := match latestRevenueVal with | some v => jsToLocaleDeDE v | none => "N/A"
      change := t.1
      percentageChange := t.2.1
      numericPercentageChange := t.2.2
      revenueLabel := revenueLabelOf latestCol }

example :
    _processRevenueCardData
      [("", .vStr "500"), ("2024-04-01", .vStr "150"), ("2024-01-01", .vStr "100")]
      ["2024-04-01", "2024-01-01"] =
    { revenue := "150", change := "50", percentageChange := "50,00%",
      numericPercentageChange := some (.fin (mkRat 1 2)), revenueLabel := "Q2 2024" } := by decide
example :
    (_processRevenueCardData
      [("", .vStr "500"), ("2024-04-01", .vStr "0"), ("2024-01-01", .vStr "0")]
      ["2024-04-01", "2024-01-01"]).percentageChange = "N/A" := by decide
example :
    (_processRevenueCardData
      [("", .vStr "500"), ("2024-04-01", .vStr "50"), ("2024-01-01", .vStr "0")]
      ["2024-04-01", "2024-01-01"]).percentageChange = "Inf%" := by decide
example :
    (_processRevenueCardData [] ["garbage"]).revenueLabel = "Q1 1970" := by decide
example :
    (_processRevenueCardData [] ["1 jan 24"]).revenueLabel = "1 jan 24" := by decide

/-!
The historical extractor `_extractHistoricalData`.

The metric name is `(row[""] || row["Release"] || "").trim()`.  The
`||`-chain yields either a truthy cell value or the string `""`; calling
`.trim()` on it throws a TypeError when that value is not a string (a
truthy number or boolean cell), which the extractor propagates to its
caller — modelled by `Except Unit`.  The output object is an association
list in key insertion order; assigning to an existing key overwrites its
value in place.
-/

/-- A per-metric series: `{date, value}` entries in push order. -/
def Series : Type := List (String × JsNum)

instance : DecidableEq Series := by unfold Series; infer_instance

/-- The historical-data object: metric name to series, insertion order. -/
def HistMap : Type := List (String × Series)

instance : DecidableEq HistMap := by unfold HistMap; infer_instance

instance {α : Type} [DecidableEq α] : DecidableEq (Except Unit α) := fun
  | .ok a, .ok b =>
    if h : a = b then isTrue (by rw [h]) else isFalse (fun hh => by cases hh; exact h rfl)
  | .ok _, .error _ => isFalse (fun h => by cases h)
  | .error _, .ok _ => isFalse (fun h => by cases h)
  | .error a, .error b => isTrue (by cases a; cases b; rfl)

/-- Object property read on the historical map. -/
def histLookup : HistMap → String → Option Series
  | [], _ => none
  | (k, v) :: rest, key => if k = key then some v else histLookup rest key

/-- Object property assignment: overwrite the existing key in place, else
append. -/
def histUpsert : HistMap → String → Series → HistMap
  | [], key, s => [(key, s)]
  | (k, v) :: rest, key, s =>
    if k = key then (k, s) :: rest else (k, v) :: histUpsert rest key s

/-- The metric name of a row: `(row[""] || row["Release"] || "").trim()`;
`error` models the TypeError thrown when the chain yields a truthy
non-string. -/
def metricNameOf (r : Row) : Except Unit String :=
  match jsOr (rowGet r "") (jsOr (rowGet r "Release") (.vStr "")) with
  | .vStr s => .ok (jsTrimStr s)
  | _ => .error ()

/-- Whether a metric name is retained (non-empty and not a header marker):
`metricName && !["Quarter", "Episode"].includes(metricName)`. -/
def retainedMetricName (name : String) : Bool :=
  !(name = "") && !(name = "Quarter") && !(name = "Episode")

/-- The series of one row: iterate `allDateColumns.slice().reverse()`,
keep the periods whose cells parse numerically. -/
def buildSeries (r : Row) (allDateColumns : List String) : Series :=
  allDateColumns.reverse.filterMap
    (fun dateCol => (_getNumericValue (rowGet r dateCol)).map (fun v => (dateCol, v)))

/-- The row loop of `_extractHistoricalData`, carrying the object built
so far. -/
def extractHistAux (allDateColumns : List String) : List Row → HistMap → Except Unit HistMap
  | [], acc => .ok acc
  | row :: rest, acc =>
    match metricNameOf row with
    | .error e => .error e
    | .ok metricName =>
      if retainedMetricName metricName then
        let series := buildSeries row allDateColumns
        if series.length > 0 then
          extractHistAux allDateColumns rest (histUpsert acc metricName series)
        else extractHistAux allDateColumns rest acc
      else extractHistAux allDateColumns rest acc

/-- The historical extractor `_extractHistoricalData`. -/
def _extractHistoricalData (rawData : List Row) (allDateColumns : List String) :
    Except Unit HistMap :=
  extractHistAux allDateColumns rawData []

example :
    _extractHistoricalData
      [[("", .vStr "Revenue"), ("2024-04-01", .vStr "150"), ("2024-01-01", .vStr "100")],
       [("", .vStr "Quarter"), ("2024-04-01", .vStr "1")],
       [("", .vStr ""), ("Release", .vStr "Margin"), ("2024-01-01", .vStr "7")]]
      ["2024-04-01", "2024-01-01"] =
    .ok [("Revenue", [("2024-01-01", .fin 100), ("2024-04-01", .fin 150)]),
         ("Margin", [("2024-01-01", .fin 7)])] := by decide
example :
    _extractHistoricalData [[("", .vNum (.fin 500)), ("2024-01-01", .vStr "1")]]
      ["2024-01-01"] = .error () := by decide
example :
    _extractHistoricalData [[("", .vStr "  "), ("Release", .vStr "Margin"), ("2024-01-01", .vStr "7")]]
      ["2024-01-01"] = .ok [] := by decide

/-!
The orchestrator `getCompanyDashboardData`.

The fetch and the JSON decode are external collaborators, modelled by a
`FetchResult` parameter: a transport error (network failure or a
non-success HTTP status, both of which reach the `catch`) or a decoded
array of rows.  The module-level cache is threaded explicitly; the
function returns the resolved `DashboardData` together with the updated
cache.  The function is total: every error path resolves with the
degraded placeholder, none rejects.
-/

/-- The assembled dashboard value. -/
structure DashboardData where
  cardData : CardData
  historicalData : HistMap
  allRows : List Row
deriving DecidableEq

/-- The degraded all-`"N/A"` card. -/
def placeholderCardData : CardData :=
  { revenue := "N/A", change := "N/A", percentageChange := "N/A",
    numericPercentageChange := none, revenueLabel := "N/A" }

/-- The degraded dashboard value built on fetch failure or empty data. -/
def placeholderDashboardData : DashboardData :=
  { cardData := placeholderCardData, historicalData := [], allRows := [] }

/-- The upstream fetch outcome for one call. -/
inductive FetchResult where
  | transportError
  | ok (rows : List Row)

/-- The module-level `companyDataCache`, keyed by sheet name. -/
def Cache : Type := String → Option DashboardData

/-- `companyDataCache[sheetName] = data`. -/
def cacheInsert (c : Cache) (k : String) (d : DashboardData) : Cache :=
  fun key => if key = k then some d else c key

/-- Sort comparator `(a, b) => parse(b) - parse(a)`, as a boolean
relation suitable for a stable sort: `a` may stay before `b` when the
comparator is non-positive or NaN. -/
def dateDescLe (a b : String) : Bool :=
  match jsTimeValue (_parseDateStringForSorting a), jsTimeValue (_parseDateStringForSorting b) with
  | some ta, some tb => tb ≤ ta
  | _, _ => true

/-- The body of the `try` block on non-empty data: derive the period
columns from the first row, select the revenue row, filter the relevant
rows, and build the card and historical data; `none` models the
TypeError of `_extractHistoricalData` escaping to the `catch`. -/
def assembleFromRows (rawData : List Row) : Option DashboardData :=
  let firstRowKeys := match rawData.head? with | some r => rowKeys r | none => []
  let allDateColumns := (firstRowKeys.filter _isDateColumn).mergeSort dateDescLe
  let revenueRow := _findRevenueRow rawData
  let allRelevantRows := rawData.filter
    (fun row => (rowValues row).any (fun val => !(val = JsValue.vStr "") && !(val = JsValue.vNull)))
  match revenueRow, allDateColumns with
  | some rr, _ :: _ =>
    (match _extractHistoricalData rawData allDateColumns with
     | .ok hist =>
       some { cardData := _processRevenueCardData rr allDateColumns,
              historicalData := hist, allRows := allRelevantRows }
     | .error _ => none)
  | _, _ =>
    some { cardData := placeholderCardData, historicalData := [], allRows := allRelevantRows }

/-- The orchestrator `stockService.getCompanyDashboardData`, with the
cache threaded explicitly and the fetch outcome as a parameter (the
source's `sheetName` is the ticker itself). -/
def getCompanyDashboardData (cache : Cache) (companyTicker : String)
    (fetched : FetchResult) : DashboardData × Cache :=
  match cache companyTicker with
  | some d => (d, cache)
  | none =>
    match fetched with
    | .transportError =>
      (placeholderDashboardData, cacheInsert cache companyTicker placeholderDashboardData)
    | .ok rawData =>
      if rawData.length = 0 then
        (placeholderDashboardData, cacheInsert cache companyTicker placeholderDashboardData)
      else
        match assembleFromRows rawData with
        | some d => (d, cacheInsert cache companyTicker d)
        | none =>
          (placeholderDashboardData, cacheInsert cache companyTicker placeholderDashboardData)

/-!
Claim theorems.  Each claim of the specification gets one theorem below
(with a counterexample theorem first when the claim, as stated, fails on
the code).
-/

/-- C6: `parseNumeric` (`_getNumericValue`) maps `"1,234"` to 1234,
`"12%"` to 0.12, `"(50)"` to -50, `"abc"` to null and the number 42 to
itself; every input that is neither a string nor a number yields null;
and for every string the percent branch takes priority: when the
comma-stripped value ends in `%` the result is exactly the percent
parse, and only otherwise is the parenthesized-negative / plain parse
applied — no value goes through both transformations. -/
theorem c6_parseNumeric_spec :
    _getNumericValue (.vStr "1,234") = some (.fin 1234) ∧
    _getNumericValue (.vStr "12%") = some (.fin (mkRat 3 25)) ∧
    _getNumericValue (.vStr "(50)") = some (.fin (-50)) ∧
    _getNumericValue (.vStr "abc") = none ∧
    _getNumericValue (.vNum (.fin 42)) = some (.fin 42) ∧
    (∀ v : JsValue, (∀ s, ¬(v = .vStr s)) → (∀ n, ¬(v = .vNum n)) →
      _getNumericValue v = none) ∧
    (∀ s : String, endsWithPercentSign (stripCommas s) = true →
      _getNumericValue (.vStr s) = percentBranchParse (stripCommas s)) ∧
    (∀ s : String, endsWithPercentSign (stripCommas s) = false →
      _getNumericValue (.vStr s) = parenOrPlainParse (stripCommas s)) := by
  refine ⟨by decide, by decide, by decide, by decide, by decide, ?_, ?_, ?_⟩
  · intro v hs hn
    cases v with
    | vStr s => exact absurd rfl (hs s)
    | vNum n => exact absurd rfl (hn n)
    | vBool b => rfl
    | vNull => rfl
    | vUndef => rfl
  · intro s h
    simp [_getNumericValue, h]
  · intro s h
    simp [_getNumericValue, h]

theorem digitChar_ne_space {c : Char} (h : isDigitChar c = true) : ¬(c = ' ') := by
  intro he
  subst he
  exact absurd h (by decide)

theorem matchDMYTail_eq_none_of_no_space (n : Nat) (l : List Char)
    (h : ∀ c ∈ l, ¬(c = ' ')) : matchDMYTail n l = none := by
  unfold matchDMYTail
  simp only
  split
  next hcond =>
    exfalso
    have hsp : (l.drop n).head? = some ' ' := by
      simp only [Bool.and_eq_true, decide_eq_true_eq] at hcond
      exact hcond.2
    cases hd : l.drop n with
    | nil => rw [hd] at hsp; simp at hsp
    | cons c r =>
      rw [hd] at hsp
      simp at hsp
      exact h ' ' (List.drop_subset n l (hd ▸ hsp ▸ List.mem_cons_self c r)) rfl
  next => rfl

theorem matchDMYHere_eq_none_of_no_space (l : List Char)
    (h : ∀ c ∈ l, ¬(c = ' ')) : matchDMYHere l = none := by
  unfold matchDMYHere
  rw [matchDMYTail_eq_none_of_no_space 2 l h, matchDMYTail_eq_none_of_no_space 1 l h]

theorem matchDMYFrom_eq_none_of_no_space (l : List Char)
    (h : ∀ c ∈ l, ¬(c = ' ')) : matchDMYFrom l = none := by
  induction l with
  | nil => rfl
  | cons c rest ih =>
    unfold matchDMYFrom
    rw [matchDMYHere_eq_none_of_no_space (c :: rest) h]
    exact ih (fun x hx => h x (List.mem_cons_of_mem c hx))

theorem isoShape_no_space (s : String) (h : isIsoDateShape s = true) :
    ∀ c ∈ s.data, ¬(c = ' ') := by
  unfold isIsoDateShape at h
  split at h
  next a b c d e f g k heq =>
    intro ch hch
    rw [heq] at hch
    simp only [List.mem_cons, List.not_mem_nil, or_false] at hch
    simp only [Bool.and_eq_true] at h
    obtain ⟨⟨⟨⟨⟨⟨⟨ha, hb⟩, hc⟩, hd⟩, he⟩, hf⟩, hg⟩, hk⟩ := h
    rcases hch with rfl | rfl | rfl | rfl | rfl | rfl | rfl | rfl | rfl | rfl
    · exact digitChar_ne_space ha
    · exact digitChar_ne_space hb
    · exact digitChar_ne_space hc
    · exact digitChar_ne_space hd
    · decide
    · exact digitChar_ne_space he
    · exact digitChar_ne_space hf
    · decide
    · exact digitChar_ne_space hg
    · exact digitChar_ne_space hk
  next => exact absurd h (by simp)

theorem matchDMY_none_of_isoShape (s : String) (h : isIsoDateShape s = true) :
    matchDMY s = none := by
  unfold matchDMY
  rw [matchDMYFrom_eq_none_of_no_space s.data (isoShape_no_space s h)]
  rfl

/-- C9: a header that matches the day-month-year pattern but whose
three-letter month token is not one of the capitalized abbreviations
`Jan`..`Dec` (so the month table lookup is `undefined`) makes
`_parseDateStringForSorting` return an invalid date (NaN time value), not
the epoch sentinel `new Date(0)`. -/
theorem c9_unknown_month_invalid (s ds ms ys : String)
    (hmatch : matchDMY s = some (ds, ms, ys))
    (hmonth : monthLookup ms = none) :
    _parseDateStringForSorting s = .invalid ∧
    ¬(_parseDateStringForSorting s = .valid 0) := by
  have hiso : isIsoDateShape s = false := by
    cases hi : isIsoDateShape s with
    | false => rfl
    | true => rw [matchDMY_none_of_isoShape s hi] at hmatch; cases hmatch
  unfold _parseDateStringForSorting
  rw [hiso]
  simp [hmatch, hmonth]

/-- Witness for C9 at the concrete header `"1 jan 24"` (lower-case month
token): the pattern matches with captures `("1", "jan", "24")`, the month
lookup fails, and the parser yields the invalid date. -/
theorem c9_unknown_month_invalid_witness :
    _parseDateStringForSorting "1 jan 24" = .invalid ∧
    ¬(_parseDateStringForSorting "1 jan 24" = .valid 0) :=
  c9_unknown_month_invalid "1 jan 24" "1" "jan" "24" (by decide) (by decide)

theorem jsTrimStr_eq_empty_of_all_space (s : String)
    (h : s.data.all isJsSpace = true) : jsTrimStr s = "" := by
  unfold jsTrimStr
  have hd : s.data.dropWhile isJsSpace = [] := by
    rw [List.dropWhile_eq_nil_iff]
    intro x hx
    exact List.all_eq_true.mp h x hx
  rw [hd]
  rfl

theorem extractHistAux_cons (cols : List String) (row : Row) (rest : List Row) (acc : HistMap) :
    extractHistAux cols (row :: rest) acc =
      (match metricNameOf row with
       | .error e => .error e
       | .ok metricName =>
         if retainedMetricName metricName then
           (if (buildSeries row cols).length > 0 then
             extractHistAux cols rest (histUpsert acc metricName (buildSeries row cols))
           else extractHistAux cols rest acc)
         else extractHistAux cols rest acc) := rfl

theorem extractHistAux_skip (cols : List String) (row : Row) (rest : List Row) (acc : HistMap)
    (name : String) (hname : metricNameOf row = .ok name)
    (hskip : retainedMetricName name = false) :
    extractHistAux cols (row :: rest) acc = extractHistAux cols rest acc := by
  rw [extractHistAux_cons, hname]
  simp [hskip]

/-- C10: in `_extractHistoricalData` the fallback from the empty-string
column to the `"Release"` column happens before trimming and only for a
falsy cell: a row whose empty-string cell is a non-empty whitespace-only
string gets the empty metric name and is skipped — the extractor's output
on `row :: rest` equals its output on `rest` — even when the `"Release"`
cell holds a usable metric name. -/
theorem c10_whitespace_label_skipped (row : Row) (s : String)
    (hcell : rowGet row "" = .vStr s)
    (hne : ¬(s = ""))
    (hsp : s.data.all isJsSpace = true) :
    metricNameOf row = .ok "" ∧
    ∀ (rest : List Row) (allDateColumns : List String),
      _extractHistoricalData (row :: rest) allDateColumns =
        _extractHistoricalData rest allDateColumns := by
  have hname : metricNameOf row = .ok "" := by
    unfold metricNameOf
    rw [hcell]
    unfold jsOr
    simp [jsTruthy, hne, jsTrimStr_eq_empty_of_all_space s hsp]
  refine ⟨hname, ?_⟩
  intro rest allDateColumns
  unfold _extractHistoricalData
  exact extractHistAux_skip allDateColumns row rest [] "" hname (by decide)

/-- Witness for C10: a row whose empty-string cell is `"  "` and whose
`"Release"` cell is the usable name `"Margin"` is skipped entirely. -/
theorem c10_whitespace_label_skipped_witness :
    metricNameOf [("", JsValue.vStr "  "), ("Release", JsValue.vStr "Margin"), ("2024-01-01", JsValue.vStr "7")] = .ok "" ∧
    ∀ (rest : List Row) (allDateColumns : List String),
      _extractHistoricalData ([("", JsValue.vStr "  "), ("Release", JsValue.vStr "Margin"), ("2024-01-01", JsValue.vStr "7")] :: rest) allDateColumns =
        _extractHistoricalData rest allDateColumns :=
  c10_whitespace_label_skipped _ "  " (by decide) (by decide) (by decide)

/-- C5: on a cache miss, a transport error (network failure or non-ok
HTTP status) or an empty data array makes `getCompanyDashboardData`
resolve — the model is a total function, so no rejection can escape —
with the degraded `DashboardData` (all-`"N/A"` card with null
`numericPercentageChange`, empty historical data, empty rows), and that
value is stored in the cache under the ticker key. -/
theorem c5_degraded_on_failure (cache : Cache) (companyTicker : String)
    (hmiss : cache companyTicker = none) :
    getCompanyDashboardData cache companyTicker .transportError =
      (placeholderDashboardData, cacheInsert cache companyTicker placeholderDashboardData) ∧
    getCompanyDashboardData cache companyTicker (.ok []) =
      (placeholderDashboardData, cacheInsert cache companyTicker placeholderDashboardData) ∧
    cacheInsert cache companyTicker placeholderDashboardData companyTicker =
      some placeholderDashboardData ∧
    placeholderDashboardData.cardData.revenue = "N/A" ∧
    placeholderDashboardData.cardData.change = "N/A" ∧
    placeholderDashboardData.cardData.percentageChange = "N/A" ∧
    placeholderDashboardData.cardData.revenueLabel = "N/A" ∧
    placeholderDashboardData.cardData.numericPercentageChange = none ∧
    placeholderDashboardData.historicalData = [] ∧
    placeholderDashboardData.allRows = [] := by
  refine ⟨?_, ?_, ?_, rfl, rfl, rfl, rfl, rfl, rfl, rfl⟩
  · unfold getCompanyDashboardData
    rw [hmiss]
  · unfold getCompanyDashboardData
    rw [hmiss]
    rfl
  · unfold cacheInsert
    simp

/-- Witness for C5: an empty cache and the ticker `"$XYZ"`. -/
theorem c5_degraded_on_failure_witness :
    getCompanyDashboardData (fun _ => none) "$XYZ" .transportError =
      (placeholderDashboardData, cacheInsert (fun _ => none) "$XYZ" placeholderDashboardData) ∧
    getCompanyDashboardData (fun _ => none) "$XYZ" (.ok []) =
      (placeholderDashboardData, cacheInsert (fun _ => none) "$XYZ" placeholderDashboardData) ∧
    cacheInsert (fun _ => none) "$XYZ" placeholderDashboardData "$XYZ" =
      some placeholderDashboardData ∧
    placeholderDashboardData.cardData.revenue = "N/A" ∧
    placeholderDashboardData.cardData.change = "N/A" ∧
    placeholderDashboardData.cardData.percentageChange = "N/A" ∧
    placeholderDashboardData.cardData.revenueLabel = "N/A" ∧
    placeholderDashboardData.cardData.numericPercentageChange = none ∧
    placeholderDashboardData.historicalData = [] ∧
    placeholderDashboardData.allRows = [] :=
  c5_degraded_on_failure (fun _ => none) "$XYZ" rfl

/-- C8: every call leaves the cache populated under its key with exactly
the value it returned, and a second call with the same key — whatever its
fetch would have produced, showing the fetch result is never consulted —
returns that identical cached value and leaves the cache unchanged. -/
theorem c8_cache_idempotent (cache : Cache) (companyTicker : String)
    (f1 f2 : FetchResult) :
    (getCompanyDashboardData cache companyTicker f1).2 companyTicker =
      some (getCompanyDashboardData cache companyTicker f1).1 ∧
    getCompanyDashboardData ((getCompanyDashboardData cache companyTicker f1).2)
        companyTicker f2 =
      ((getCompanyDashboardData cache companyTicker f1).1,
       (getCompanyDashboardData cache companyTicker f1).2) := by
  have hins : ∀ (c : Cache) (d : DashboardData),
      cacheInsert c companyTicker d companyTicker = some d := by
    intro c d
    unfold cacheInsert
    simp
  have hpop : (getCompanyDashboardData cache companyTicker f1).2 companyTicker =
      some (getCompanyDashboardData cache companyTicker f1).1 := by
    unfold getCompanyDashboardData
    cases h : cache companyTicker with
    | some d => simpa using h
    | none =>
      cases f1 with
      | transportError => simpa using hins cache placeholderDashboardData
      | ok rawData =>
        by_cases hl : rawData.length = 0
        · simp only [hl]
          simpa using hins cache placeholderDashboardData
        · simp only [hl]
          cases ha : assembleFromRows rawData with
          | some d => simpa [ha, hl] using hins cache d
          | none => simpa [ha, hl] using hins cache placeholderDashboardData
  refine ⟨hpop, ?_⟩
  conv_lhs => rw [getCompanyDashboardData.eq_def]
  rw [hpop]

theorem jsGt_eq_false_of_jsLt (x y : JsNum) (h : jsLt x y = true) : jsGt x y = false := by
  cases x <;> cases y <;> simp_all [jsLt, jsGt]
  exact le_of_lt h

/-- C1 counterexample: a revenue row whose latest and previous cells both
parse to 0 over a descending two-period list satisfies the claim's
hypotheses (`previous == 0`, `delta = 0 <= 0`), yet
`_processRevenueCardData` leaves `percentageChange = "N/A"` and
`numericPercentageChange = null` — not `"-Inf%"` / negative infinity: the
source's `else if (calculatedChange < 0)` chain has no final else, so the
`delta == 0` case falls through with nothing assigned. -/
theorem c1_counterexample :
    _getNumericValue (rowGet [("", JsValue.vStr "500"), ("2024-04-01", JsValue.vStr "0"), ("2024-01-01", JsValue.vStr "0")] "2024-04-01") = some (JsNum.fin 0) ∧
    _getNumericValue (rowGet [("", JsValue.vStr "500"), ("2024-04-01", JsValue.vStr "0"), ("2024-01-01", JsValue.vStr "0")] "2024-01-01") = some (JsNum.fin 0) ∧
    jsSub (JsNum.fin 0) (JsNum.fin 0) = JsNum.fin 0 ∧
    (_processRevenueCardData [("", JsValue.vStr "500"), ("2024-04-01", JsValue.vStr "0"), ("2024-01-01", JsValue.vStr "0")] ["2024-04-01", "2024-01-01"]).percentageChange = "N/A" ∧
    ¬((_processRevenueCardData [("", JsValue.vStr "500"), ("2024-04-01", JsValue.vStr "0"), ("2024-01-01", JsValue.vStr "0")] ["2024-04-01", "2024-01-01"]).percentageChange = "-Inf%") ∧
    (_processRevenueCardData [("", JsValue.vStr "500"), ("2024-04-01", JsValue.vStr "0"), ("2024-01-01", JsValue.vStr "0")] ["2024-04-01", "2024-01-01"]).numericPercentageChange = none := by
  decide

/-- C1 (amended): with a non-empty previous period column, when the
latest cell parses to `lv` and the previous cell parses to 0, a strictly
negative `delta = lv - 0` yields `percentageChange = "-Inf%"` with
`numericPercentageChange` negative infinity, while `delta = 0` (both
values zero) leaves `"N/A"` and null. -/
theorem c1_zero_previous_branches (row : Row) (latestCol prevCol : String)
    (restCols : List String) (lv : JsNum)
    (hp : ¬(prevCol = ""))
    (hl : _getNumericValue (rowGet row latestCol) = some lv)
    (hprev : _getNumericValue (rowGet row prevCol) = some (.fin 0)) :
    (jsLt (jsSub lv (.fin 0)) (.fin 0) = true →
      (_processRevenueCardData row (latestCol :: prevCol :: restCols)).percentageChange = "-Inf%" ∧
      (_processRevenueCardData row (latestCol :: prevCol :: restCols)).numericPercentageChange = some .negInf) ∧
    (jsSub lv (.fin 0) = .fin 0 →
      (_processRevenueCardData row (latestCol :: prevCol :: restCols)).percentageChange = "N/A" ∧
      (_processRevenueCardData row (latestCol :: prevCol :: restCols)).numericPercentageChange = none) := by
  have hpc : (_processRevenueCardData row (latestCol :: prevCol :: restCols)).percentageChange =
      (changeTriple (some lv) (some (JsNum.fin 0))).2.1 := by
    simp [_processRevenueCardData, hl, hprev, hp]
  have hnpc : (_processRevenueCardData row (latestCol :: prevCol :: restCols)).numericPercentageChange =
      (changeTriple (some lv) (some (JsNum.fin 0))).2.2 := by
    simp [_processRevenueCardData, hl, hprev, hp]
  constructor
  · intro hlt
    have hgt := jsGt_eq_false_of_jsLt _ _ hlt
    rw [hpc, hnpc]
    simp [changeTriple, hgt, hlt]
  · intro hz
    rw [hpc, hnpc]
    simp [changeTriple, hz]
    decide

/-- Witness for the amended C1 at latest `"-5"`, previous `"0"`: the
delta is negative and the card shows `"-Inf%"`. -/
theorem c1_zero_previous_branches_witness :
    (_processRevenueCardData [("2024-04-01", JsValue.vStr "-5"), ("2024-01-01", JsValue.vStr "0")] ["2024-04-01", "2024-01-01"]).percentageChange = "-Inf%" ∧
    (_processRevenueCardData [("2024-04-01", JsValue.vStr "-5"), ("2024-01-01", JsValue.vStr "0")] ["2024-04-01", "2024-01-01"]).numericPercentageChange = some JsNum.negInf :=
  (c1_zero_previous_branches
    [("2024-04-01", JsValue.vStr "-5"), ("2024-01-01", JsValue.vStr "0")]
    "2024-04-01" "2024-01-01" [] (JsNum.fin (-5))
    (by decide) (by decide) (by decide)).1 (by decide)

/-- C2 counterexample: for the latest header `"1 jan 24"` the date parse
fails (invalid date: the lower-case month token is not in the table), yet
`revenueLabel` is the raw header `"1 jan 24"`, not `"Latest (1 jan 24)"`:
the parser never throws on a string, so the `catch` that would build the
`"Latest (...)"` label is unreachable. -/
theorem c2_counterexample :
    jsGetFullYear (_parseDateStringForSorting "1 jan 24") = none ∧
    (_processRevenueCardData [] ["1 jan 24"]).revenueLabel = "1 jan 24" ∧
    ¬((_processRevenueCardData [] ["1 jan 24"]).revenueLabel = "Latest (1 jan 24)") := by
  decide

/-- C2 (amended): for a non-empty period list, `revenueLabel` is
`"Q<quarter> <year>"` exactly when the parsed date of the latest header
has a year above 1900 — which includes the epoch sentinel that headers
matching neither date pattern are mapped to (year 1970, label
`"Q1 1970"`) — and otherwise (invalid date, NaN year, or year at most
1900) `revenueLabel` is the raw header string; the `"Latest (<latest>)"`
fallback never occurs for a string header. -/
theorem c2_revenue_label (row : Row) (latestCol : String) (restCols : List String) :
    (∀ y : Int, jsGetFullYear (_parseDateStringForSorting latestCol) = some y →
      ((1900 < y →
        (_processRevenueCardData row (latestCol :: restCols)).revenueLabel =
          "Q" ++ Nat.repr (jsGetMonth (_parseDateStringForSorting latestCol) / 3 + 1) ++ " " ++ toString y) ∧
       (¬(1900 < y) →
        (_processRevenueCardData row (latestCol :: restCols)).revenueLabel = latestCol))) ∧
    (jsGetFullYear (_parseDateStringForSorting latestCol) = none →
      (_processRevenueCardData row (latestCol :: restCols)).revenueLabel = latestCol) := by
  have hlab : (_processRevenueCardData row (latestCol :: restCols)).revenueLabel =
      revenueLabelOf latestCol := rfl
  constructor
  · intro y hy
    constructor
    · intro hgt
      rw [hlab]
      unfold revenueLabelOf
      rw [hy]
      simp [hgt]
    · intro hle
      rw [hlab]
      unfold revenueLabelOf
      rw [hy]
      simp [hle]
  · intro hn
    rw [hlab]
    unfold revenueLabelOf
    rw [hn]

theorem append_percent_ne_NA (s : String) : ¬(s ++ "%" = "N/A") := by
  intro h
  obtain ⟨l⟩ := s
  have hd : l ++ ['%'] = ['N', '/', 'A'] := congrArg String.data h
  have hlast := congrArg List.getLast? hd
  rw [List.getLast?_concat] at hlast
  simp at hlast

theorem pctStringOfRatio_ne_NA (x : JsNum) : ¬(pctStringOfRatio x = "N/A") := by
  unfold pctStringOfRatio
  cases x <;> exact append_percent_ne_NA _

theorem changeTriple_invariant (a b : Option JsNum) :
    ((changeTriple a b).2.2 = none ↔ (changeTriple a b).2.1 = "N/A") := by
  cases a with
  | none => cases b <;> simp [changeTriple]
  | some lv =>
    cases b with
    | none => simp [changeTriple]
    | some pv =>
      by_cases hz : pv = JsNum.fin 0
      · subst hz
        by_cases hgt : jsGt (jsSub lv (.fin 0)) (.fin 0) = true
        · simp [changeTriple, hgt]
        · by_cases hlt : jsLt (jsSub lv (.fin 0)) (.fin 0) = true
          · simp [changeTriple, hgt, hlt]
          · simp [changeTriple, hgt, hlt]
      · simp [changeTriple, hz, pctStringOfRatio_ne_NA]

/-- C4: every card the pipeline can produce — `_processRevenueCardData`
on any row and any period list (including the degenerate empty list the
assembler guards against), and the assembler's degraded placeholder —
satisfies: `numericPercentageChange` is null iff `percentageChange` is
the string `"N/A"`. -/
theorem c4_na_iff_null (row : Row) (allDateColumns : List String) :
    ((_processRevenueCardData row allDateColumns).numericPercentageChange = none ↔
     (_processRevenueCardData row allDateColumns).percentageChange = "N/A") ∧
    (placeholderCardData.numericPercentageChange = none ↔
     placeholderCardData.percentageChange = "N/A") := by
  refine ⟨?_, by simp [placeholderCardData]⟩
  cases allDateColumns with
  | nil => simp [_processRevenueCardData]
  | cons latestCol restCols =>
    have h1 : (_processRevenueCardData row (latestCol :: restCols)).numericPercentageChange =
        (changeTriple (_getNumericValue (rowGet row latestCol))
          (match restCols.head? with
           | some prevCol => if prevCol = "" then none else _getNumericValue (rowGet row prevCol)
           | none => none)).2.2 := rfl
    have h2 : (_processRevenueCardData row (latestCol :: restCols)).percentageChange =
        (changeTriple (_getNumericValue (rowGet row latestCol))
          (match restCols.head? with
           | some prevCol => if prevCol = "" then none else _getNumericValue (rowGet row prevCol)
           | none => none)).2.1 := rfl
    rw [h1, h2]
    exact changeTriple_invariant _ _

theorem jsGt_ne_nan_left {a b : JsNum} (h : jsGt a b = true) : ¬(a = .nan) := by
  cases a <;> cases b <;> simp_all [jsGt]

theorem jsGt_ne_nan_right {a b : JsNum} (h : jsGt a b = true) : ¬(b = .nan) := by
  cases a <;> cases b <;> simp_all [jsGt]

theorem jsGt_trans {a b c : JsNum} (h1 : jsGt a b = true) (h2 : jsGt b c = true) :
    jsGt a c = true := by
  cases a <;> cases b <;> cases c <;> simp_all [jsGt]
  exact lt_trans h2 h1

theorem jsGt_of_gt_of_not_gt {v2 v m : JsNum} (h1 : jsGt v2 m = true)
    (h2 : jsGt v m = false) (hv : ¬(v = .nan)) : jsGt v2 v = true := by
  cases v2 <;> cases v <;> cases m <;> simp_all [jsGt]
  exact lt_of_le_of_lt h2 h1

theorem jsGt_neg_one_of_gt_100 {v : JsNum} (h : jsGt v (.fin 100) = true) :
    jsGt v (.fin (-1)) = true := by
  cases v <;> simp_all [jsGt]
  linarith

theorem eligibleRow_eq_of_some {r : Row} {v : JsNum} (h : labelNumValue r = some v) :
    eligibleRow r = (jsGt v (.fin 100) && rowHasDateColumns r) := by
  simp [eligibleRow, h]

theorem eligibleRow_eq_false_of_none {r : Row} (h : labelNumValue r = none) :
    eligibleRow r = false := by
  simp [eligibleRow, h]

theorem good_has_value {r : Row} (h : goodRevenueCandidate r = true) :
    ∃ v, labelNumValue r = some v ∧ jsGt v (.fin 100) = true := by
  have he : eligibleRow r = true := by
    simp [goodRevenueCandidate] at h
    exact h.1
  cases hv : labelNumValue r with
  | none => rw [eligibleRow_eq_false_of_none hv] at he; cases he
  | some v =>
    rw [eligibleRow_eq_of_some hv] at he
    exact ⟨v, rfl, (Bool.and_eq_true_iff.mp he).1⟩

theorem good_not_identifying {r : Row} (h : goodRevenueCandidate r = true) :
    releaseColIdentifying r = false := by
  simp [goodRevenueCandidate] at h
  exact h.2

theorem findRevAux_cons (row : Row) (rest : List Row) (best : Option Row) (maxR : JsNum) :
    findRevenueRowAux (row :: rest) best maxR =
      (match labelNumValue row with
       | some numValue =>
         if jsGt numValue (.fin 100) && rowHasDateColumns row then
           (if jsGt numValue maxR && !releaseColIdentifying row then
             findRevenueRowAux rest (some row) numValue
           else findRevenueRowAux rest best maxR)
         else findRevenueRowAux rest best maxR
       | none => findRevenueRowAux rest best maxR) := rfl

theorem findRevAux_all_bad (l : List Row) :
    ∀ (best : Option Row) (maxR : JsNum),
      (∀ r ∈ l, goodRevenueCandidate r = false) →
      findRevenueRowAux l best maxR = best := by
  induction l with
  | nil => intro best maxR _; rfl
  | cons row rest ih =>
    intro best maxR h
    have hrest : ∀ r ∈ rest, goodRevenueCandidate r = false :=
      fun r hr => h r (List.mem_cons_of_mem _ hr)
    have hrow := h row (List.mem_cons_self _ _)
    rw [findRevAux_cons]
    cases hv : labelNumValue row with
    | none => exact ih best maxR hrest
    | some v =>
      by_cases he : (jsGt v (.fin 100) && rowHasDateColumns row) = true
      · have helig : eligibleRow row = true := by rw [eligibleRow_eq_of_some hv]; exact he
        have hrel : releaseColIdentifying row = true := by
          simp [goodRevenueCandidate, helig] at hrow
          exact hrow
        simp only [he, if_true, hrel]
        simp only [Bool.not_true, Bool.and_false, Bool.false_eq_true, if_false]
        exact ih best maxR hrest
      · simp only [Bool.not_eq_true] at he
        simp only [he, Bool.false_eq_true, if_false]
        exact ih best maxR hrest

theorem findRevAux_eq_none (l : List Row) :
    ∀ (best : Option Row) (maxR : JsNum),
      findRevenueRowAux l best maxR = none →
      best = none ∧
      (∀ r ∈ l, ∀ v, labelNumValue r = some v → goodRevenueCandidate r = true →
        jsGt v maxR = false) := by
  induction l with
  | nil =>
    intro best maxR h
    exact ⟨h, by intro r hr; cases hr⟩
  | cons row rest ih =>
    intro best maxR h
    rw [findRevAux_cons] at h
    cases hv : labelNumValue row with
    | none =>
      rw [hv] at h
      obtain ⟨hb, hrest⟩ := ih best maxR h
      refine ⟨hb, ?_⟩
      intro r hr v hrv hgood
      rcases List.mem_cons.mp hr with rfl | hr'
      · rw [hv] at hrv; cases hrv
      · exact hrest r hr' v hrv hgood
    | some v =>
      rw [hv] at h
      dsimp only at h
      by_cases he : (jsGt v (.fin 100) && rowHasDateColumns row) = true
      · rw [if_pos he] at h
        by_cases hi : (jsGt v maxR && !releaseColIdentifying row) = true
        · rw [if_pos hi] at h
          obtain ⟨hb, -⟩ := ih (some row) v h
          cases hb
        · rw [if_neg hi] at h
          obtain ⟨hb, hrest⟩ := ih best maxR h
          refine ⟨hb, ?_⟩
          intro r hr v' hrv hgood
          rcases List.mem_cons.mp hr with rfl | hr'
          · rw [hv] at hrv
            injection hrv with hvv
            subst hvv
            have hrel := good_not_identifying hgood
            rw [hrel] at hi
            simp only [Bool.not_false, Bool.and_true] at hi
            simpa using hi
          · exact hrest r hr' v' hrv hgood
      · rw [if_neg he] at h
        obtain ⟨hb, hrest⟩ := ih best maxR h
        refine ⟨hb, ?_⟩
        intro r hr v' hrv hgood
        rcases List.mem_cons.mp hr with rfl | hr'
        · exfalso
          obtain ⟨w, hw, -⟩ := good_has_value hgood
          rw [hv] at hw
          injection hw with hvw
          subst hvw
          have helig : eligibleRow r = true := by
            simp [goodRevenueCandidate] at hgood
            exact hgood.1
          rw [eligibleRow_eq_of_some hv] at helig
          exact he helig
        · exact hrest r hr' v' hrv hgood

theorem findRevAux_max (l : List Row) :
    ∀ (best : Option Row) (maxR : JsNum) (b : Row),
      ¬(maxR = .nan) →
      findRevenueRowAux l best maxR = some b →
      (findRevenueRowAux l best maxR = best ∧
        (∀ r' ∈ l, ∀ v', labelNumValue r' = some v' → goodRevenueCandidate r' = true →
          jsGt v' maxR = false)) ∨
      (∃ v pre post, goodRevenueCandidate b = true ∧ labelNumValue b = some v ∧
        jsGt v maxR = true ∧ l = pre ++ b :: post ∧
        (∀ r' ∈ pre, ∀ v', labelNumValue r' = some v' → goodRevenueCandidate r' = true →
          jsGt v v' = true) ∧
        (∀ r' ∈ post, ∀ v', labelNumValue r' = some v' → goodRevenueCandidate r' = true →
          jsGt v' v = false)) := by
  induction l with
  | nil =>
    intro best maxR b _ h
    exact Or.inl ⟨rfl, by intro r hr; cases hr⟩
  | cons row rest ih =>
    intro best maxR b hnan h
    rw [findRevAux_cons] at h ⊢
    cases hv : labelNumValue row with
    | none =>
      rw [hv] at h
      dsimp only at h ⊢
      rcases ih best maxR b hnan h with ⟨heq, hbound⟩ | ⟨v2, pre2, post2, hgood, hval, hgt, hsplit, hpre, hpost⟩
      · refine Or.inl ⟨heq, ?_⟩
        intro r hr v' hrv hg
        rcases List.mem_cons.mp hr with rfl | hr'
        · rw [hv] at hrv; cases hrv
        · exact hbound r hr' v' hrv hg
      · refine Or.inr ⟨v2, row :: pre2, post2, hgood, hval, hgt, by simp [hsplit], ?_, hpost⟩
        intro r hr v' hrv hg
        rcases List.mem_cons.mp hr with rfl | hr'
        · rw [hv] at hrv; cases hrv
        · exact hpre r hr' v' hrv hg
    | some v =>
      rw [hv] at h
      dsimp only at h ⊢
      by_cases he : (jsGt v (.fin 100) && rowHasDateColumns row) = true
      · rw [if_pos he] at h ⊢
        by_cases hi : (jsGt v maxR && !releaseColIdentifying row) = true
        · rw [if_pos hi] at h ⊢
          have hvgt100 : jsGt v (.fin 100) = true := (Bool.and_eq_true_iff.mp he).1
          have hvnan : ¬(v = .nan) := jsGt_ne_nan_left hvgt100
          have hvmax : jsGt v maxR = true := (Bool.and_eq_true_iff.mp hi).1
          have hrel : releaseColIdentifying row = false := by
            have := (Bool.and_eq_true_iff.mp hi).2
            simpa using this
          have hgoodrow : goodRevenueCandidate row = true := by
            simp [goodRevenueCandidate, eligibleRow_eq_of_some hv, he, hrel]
          rcases ih (some row) v b hvnan h with ⟨heq, hbound⟩ | ⟨v2, pre2, post2, hgood, hval, hgt, hsplit, hpre, hpost⟩
          · rw [heq] at h ⊢
            injection h with hb
            subst hb
            refine Or.inr ⟨v, [], rest, hgoodrow, hv, hvmax, rfl, ?_, hbound⟩
            intro r hr
            cases hr
          · refine Or.inr ⟨v2, row :: pre2, post2, hgood, hval,
              jsGt_trans hgt hvmax, by simp [hsplit], ?_, hpost⟩
            intro r hr v' hrv hg
            rcases List.mem_cons.mp hr with rfl | hr'
            · rw [hv] at hrv
              injection hrv with hvv
              subst hvv
              exact hgt
            · exact hpre r hr' v' hrv hg
        · rw [if_neg hi] at h ⊢
          have hrowbound : ∀ v', labelNumValue row = some v' →
              goodRevenueCandidate row = true → jsGt v' maxR = false := by
            intro v' hrv hg
            rw [hv] at hrv
            injection hrv with hvv
            subst hvv
            have hrel := good_not_identifying hg
            rw [hrel] at hi
            simp only [Bool.not_false, Bool.and_true] at hi
            simpa using hi
          rcases ih best maxR b hnan h with ⟨heq, hbound⟩ | ⟨v2, pre2, post2, hgood, hval, hgt, hsplit, hpre, hpost⟩
          · refine Or.inl ⟨heq, ?_⟩
            intro r hr v' hrv hg
            rcases List.mem_cons.mp hr with rfl | hr'
            · exact hrowbound v' hrv hg
            · exact hbound r hr' v' hrv hg
          · refine Or.inr ⟨v2, row :: pre2, post2, hgood, hval, hgt, by simp [hsplit], ?_, hpost⟩
            intro r hr v' hrv hg
            rcases List.mem_cons.mp hr with rfl | hr'
            · have hvf : jsGt v' maxR = false := hrowbound v' hrv hg
              have hv'nan : ¬(v' = .nan) := by
                obtain ⟨w, hw, hw100⟩ := good_has_value hg
                rw [hrv] at hw
                injection hw with hww
                subst hww
                exact jsGt_ne_nan_left hw100
              exact jsGt_of_gt_of_not_gt hgt hvf hv'nan
            · exact hpre r hr' v' hrv hg
      · rw [if_neg he] at h ⊢
        have hrowvac : ∀ v', labelNumValue row = some v' →
            ¬(goodRevenueCandidate row = true) := by
          intro v' hrv hg
          have helig : eligibleRow row = true := by
            simp [goodRevenueCandidate] at hg
            exact hg.1
          rw [eligibleRow_eq_of_some hv] at helig
          exact he helig
        rcases ih best maxR b hnan h with ⟨heq, hbound⟩ | ⟨v2, pre2, post2, hgood, hval, hgt, hsplit, hpre, hpost⟩
        · refine Or.inl ⟨heq, ?_⟩
          intro r hr v' hrv hg
          rcases List.mem_cons.mp hr with rfl | hr'
          · exact absurd hg (hrowvac v' hrv)
          · exact hbound r hr' v' hrv hg
        · refine Or.inr ⟨v2, row :: pre2, post2, hgood, hval, hgt, by simp [hsplit], ?_, hpost⟩
          intro r hr v' hrv hg
          rcases List.mem_cons.mp hr with rfl | hr'
          · exact absurd hg (hrowvac v' hrv)
          · exact hpre r hr' v' hrv hg

/-- C3 counterexample: over the single row
`{"": "200", "Release": "Quarter", "2024-01-01": "x"}` an eligible
candidate exists (the label parses to 200 > 100 and a period column is
present), yet `_findRevenueRow` returns null because the only candidate
is disqualified by its `"Release"` cell — contradicting the claim that
null is returned only when no eligible candidate exists. -/
theorem c3_counterexample :
    eligibleRow [("", JsValue.vStr "200"), ("Release", JsValue.vStr "Quarter"), ("2024-01-01", JsValue.vStr "x")] = true ∧
    _findRevenueRow [[("", JsValue.vStr "200"), ("Release", JsValue.vStr "Quarter"), ("2024-01-01", JsValue.vStr "x")]] = none := by
  decide

/-- C3 (amended): `_findRevenueRow` returns null exactly on inputs with
no row that is both an eligible candidate (label parses, exceeds 100, at
least one period column) and non-disqualified; when such a row exists it
returns a first-seen row of maximal label value among the eligible
non-disqualified rows — every good row strictly earlier has a strictly
smaller value, no good row later has a larger one — and a disqualified
row is never returned. -/
theorem c3_find_revenue_row (data : List Row) :
    ((∀ r ∈ data, goodRevenueCandidate r = false) → _findRevenueRow data = none) ∧
    ((∃ r ∈ data, goodRevenueCandidate r = true) →
      ∃ b v pre post, _findRevenueRow data = some b ∧ goodRevenueCandidate b = true ∧
        labelNumValue b = some v ∧ data = pre ++ b :: post ∧
        (∀ r' ∈ pre, ∀ v', labelNumValue r' = some v' → goodRevenueCandidate r' = true →
          jsGt v v' = true) ∧
        (∀ r' ∈ post, ∀ v', labelNumValue r' = some v' → goodRevenueCandidate r' = true →
          jsGt v' v = false)) ∧
    (∀ b, _findRevenueRow data = some b → releaseColIdentifying b = false) := by
  have hnan : ¬((JsNum.fin (-1)) = JsNum.nan) := by decide
  refine ⟨?_, ?_, ?_⟩
  · intro h
    exact findRevAux_all_bad data none (.fin (-1)) h
  · intro ⟨r, hr, hgood⟩
    cases hres : _findRevenueRow data with
    | none =>
      exfalso
      obtain ⟨-, hbound⟩ := findRevAux_eq_none data none (.fin (-1)) hres
      obtain ⟨v, hv, h100⟩ := good_has_value hgood
      have := hbound r hr v hv hgood
      rw [jsGt_neg_one_of_gt_100 h100] at this
      cases this
    | some b =>
      rcases findRevAux_max data none (.fin (-1)) b hnan hres with ⟨heq, -⟩ | ⟨v, pre, post, hgood2, hval, -, hsplit, hpre, hpost⟩
      · exfalso
        have h2 : _findRevenueRow data = none := heq
        rw [h2] at hres
        cases hres
      · exact ⟨b, v, pre, post, rfl, hgood2, hval, hsplit, hpre, hpost⟩
  · intro b hres
    rcases findRevAux_max data none (.fin (-1)) b hnan hres with ⟨heq, -⟩ | ⟨v, pre, post, hgood2, -, -, -, -, -⟩
    · exfalso
      have h2 : _findRevenueRow data = none := heq
      rw [h2] at hres
      cases hres
    · exact good_not_identifying hgood2

theorem histLookup_upsert_self (m : HistMap) (k : String) (v : Series) :
    histLookup (histUpsert m k v) k = some v := by
  induction m with
  | nil => simp [histUpsert, histLookup]
  | cons p rest ih =>
    obtain ⟨k', v'⟩ := p
    by_cases h : k' = k
    · simp [histUpsert, histLookup, h]
    · simp [histUpsert, histLookup, h, ih]

theorem histLookup_upsert_other (m : HistMap) (k : String) (v : Series) (k' : String)
    (h : ¬(k' = k)) : histLookup (histUpsert m k v) k' = histLookup m k' := by
  induction m with
  | nil =>
    simp only [histUpsert, histLookup]
    rw [if_neg (fun hh => h hh.symm)]
  | cons p rest ih =>
    obtain ⟨k2, v2⟩ := p
    by_cases h2 : k2 = k
    · subst h2
      simp only [histUpsert, if_pos rfl, histLookup]
      rw [if_neg (fun hh => h hh.symm), if_neg (fun hh => h hh.symm)]
    · simp only [histUpsert, if_neg h2, histLookup]
      by_cases h3 : k2 = k'
      · rw [if_pos h3, if_pos h3]
      · rw [if_neg h3, if_neg h3]
        exact ih

/-- Whether a row writes `name` into the historical map: its metric name
is `name`, the name is retained, and its series is non-empty. -/
def contributingRow (r : Row) (cols : List String) (name : String) : Bool :=
  match metricNameOf r with
  | .ok n => n = name && retainedMetricName n && decide ((buildSeries r cols).length > 0)
  | .error _ => false

theorem contributingRow_spec {r : Row} {cols : List String} {name : String}
    (h : contributingRow r cols name = true) :
    metricNameOf r = .ok name ∧ retainedMetricName name = true ∧
    ¬(buildSeries r cols = []) := by
  unfold contributingRow at h
  cases hm : metricNameOf r with
  | error e => rw [hm] at h; cases h
  | ok n =>
    rw [hm] at h
    simp only [Bool.and_eq_true, decide_eq_true_eq] at h
    obtain ⟨⟨hn, hret⟩, hlen⟩ := h
    subst hn
    exact ⟨rfl, hret, List.ne_nil_of_length_pos hlen⟩

theorem contributingRow_of_parts {r : Row} {cols : List String} {name : String}
    (h1 : metricNameOf r = .ok name) (h2 : retainedMetricName name = true)
    (h3 : ¬(buildSeries r cols = [])) : contributingRow r cols name = true := by
  unfold contributingRow
  rw [h1]
  simp [h2, List.length_pos.mpr h3]

theorem extractHistAux_lookup (cols : List String) (rows : List Row) :
    ∀ acc : HistMap,
      (∀ r ∈ rows, ¬(metricNameOf r = .error ())) →
      ∃ m, extractHistAux cols rows acc = .ok m ∧
        ∀ name : String,
          ((∀ r ∈ rows, contributingRow r cols name = false) →
            histLookup m name = histLookup acc name) ∧
          ((∃ r ∈ rows, contributingRow r cols name = true) →
            ∃ pre r post, rows = pre ++ r :: post ∧ contributingRow r cols name = true ∧
              histLookup m name = some (buildSeries r cols) ∧
              (∀ r' ∈ post, contributingRow r' cols name = false)) := by
  induction rows with
  | nil =>
    intro acc _
    refine ⟨acc, rfl, ?_⟩
    intro name
    exact ⟨fun _ => rfl, fun ⟨r, hr, _⟩ => absurd hr (List.not_mem_nil r)⟩
  | cons row rest ih =>
    intro acc hstr
    have hrowstr := hstr row (List.mem_cons_self _ _)
    have hreststr : ∀ r ∈ rest, ¬(metricNameOf r = .error ()) :=
      fun r hr => hstr r (List.mem_cons_of_mem _ hr)
    cases hm : metricNameOf row with
    | error e => cases e; exact absurd hm hrowstr
    | ok s =>
      have hrowcontrib : ∀ name, ¬(s = name) → contributingRow row cols name = false := by
        intro name hne
        unfold contributingRow
        rw [hm]
        simp [hne]
      by_cases hret : retainedMetricName s = true
      · by_cases hlen : (buildSeries row cols).length > 0
        · -- the row writes its series into the object
          have hstep : extractHistAux cols (row :: rest) acc =
              extractHistAux cols rest (histUpsert acc s (buildSeries row cols)) := by
            rw [extractHistAux_cons, hm]
            simp [hret, hlen]
          obtain ⟨m, hok, hprops⟩ := ih (histUpsert acc s (buildSeries row cols)) hreststr
          refine ⟨m, by rw [hstep]; exact hok, ?_⟩
          intro name
          constructor
          · intro hall
            have hrowf := hall row (List.mem_cons_self _ _)
            have hne : ¬(s = name) := by
              intro hsn
              subst hsn
              rw [contributingRow_of_parts hm hret
                (List.ne_nil_of_length_pos hlen)] at hrowf
              cases hrowf
            rw [(hprops name).1 (fun r hr => hall r (List.mem_cons_of_mem _ hr))]
            exact histLookup_upsert_other acc s _ name (fun hh => hne hh.symm)
          · intro hex
            by_cases hrest : rest.any (fun r => contributingRow r cols name) = true
            · obtain ⟨r, hr, hcr⟩ := List.any_eq_true.mp hrest
              obtain ⟨pre, r2, post, hsplit, hc2, hlook, hpost⟩ :=
                (hprops name).2 ⟨r, hr, hcr⟩
              exact ⟨row :: pre, r2, post, by simp [hsplit], hc2, hlook, hpost⟩
            · have hallrest : ∀ r ∈ rest, contributingRow r cols name = false := by
                intro r hr
                cases hcr : contributingRow r cols name with
                | false => rfl
                | true => exact absurd (List.any_eq_true.mpr ⟨r, hr, hcr⟩) hrest
              obtain ⟨r, hr, hcr⟩ := hex
              have hrrow : r = row := by
                rcases List.mem_cons.mp hr with rfl | hr'
                · rfl
                · rw [hallrest r hr'] at hcr; cases hcr
              subst hrrow
              have hsname : s = name := by
                by_contra hne
                rw [hrowcontrib name hne] at hcr
                cases hcr
              subst hsname
              refine ⟨[], r, rest, rfl, hcr, ?_, hallrest⟩
              rw [(hprops s).1 hallrest]
              exact histLookup_upsert_self acc s _
        · -- retained but empty series: nothing is written
          have hstep : extractHistAux cols (row :: rest) acc = extractHistAux cols rest acc := by
            rw [extractHistAux_cons, hm]
            simp [hret, hlen]
          have hrowf : ∀ name, contributingRow row cols name = false := by
            intro name
            unfold contributingRow
            rw [hm]
            simp [hlen]
          obtain ⟨m, hok, hprops⟩ := ih acc hreststr
          refine ⟨m, by rw [hstep]; exact hok, ?_⟩
          intro name
          constructor
          · intro hall
            exact (hprops name).1 (fun r hr => hall r (List.mem_cons_of_mem _ hr))
          · intro ⟨r, hr, hcr⟩
            have hrin : r ∈ rest := by
              rcases List.mem_cons.mp hr with rfl | hr'
              · rw [hrowf name] at hcr; cases hcr
              · exact hr'
            obtain ⟨pre, r2, post, hsplit, hc2, hlook, hpost⟩ :=
              (hprops name).2 ⟨r, hrin, hcr⟩
            exact ⟨row :: pre, r2, post, by simp [hsplit], hc2, hlook, hpost⟩
      · -- skipped name
        have hstep : extractHistAux cols (row :: rest) acc = extractHistAux cols rest acc :=
          extractHistAux_skip cols row rest acc s hm (Bool.not_eq_true _ ▸ hret)
        have hrowf : ∀ name, contributingRow row cols name = false := by
          intro name
          unfold contributingRow
          rw [hm]
          cases hsn : decide (s = name) with
          | false => simp [hsn]
          | true =>
            have : s = name := of_decide_eq_true hsn
            subst this
            simp [Bool.not_eq_true _ ▸ hret]
        obtain ⟨m, hok, hprops⟩ := ih acc hreststr
        refine ⟨m, by rw [hstep]; exact hok, ?_⟩
        intro name
        constructor
        · intro hall
          exact (hprops name).1 (fun r hr => hall r (List.mem_cons_of_mem _ hr))
        · intro ⟨r, hr, hcr⟩
          have hrin : r ∈ rest := by
            rcases List.mem_cons.mp hr with rfl | hr'
            · rw [hrowf name] at hcr; cases hcr
            · exact hr'
          obtain ⟨pre, r2, post, hsplit, hc2, hlook, hpost⟩ :=
            (hprops name).2 ⟨r, hrin, hcr⟩
          exact ⟨row :: pre, r2, post, by simp [hsplit], hc2, hlook, hpost⟩

/-- C7 counterexample: a row whose empty-string cell is the truthy number
500 makes the metric-name chain `(row[""] || row["Release"] || "").trim()`
throw a TypeError (numbers have no `trim` method), so
`_extractHistoricalData` produces no mapping at all for this row
sequence — contradicting the claim, which describes a skip/retain result
for every row sequence. -/
theorem c7_counterexample :
    _extractHistoricalData [[("", JsValue.vNum (.fin 500)), ("2024-01-01", JsValue.vStr "1")]]
      ["2024-01-01"] = .error () ∧
    ¬(∃ m, _extractHistoricalData [[("", JsValue.vNum (.fin 500)), ("2024-01-01", JsValue.vStr "1")]]
      ["2024-01-01"] = .ok m) := by
  refine ⟨by decide, ?_⟩
  intro ⟨m, hm⟩
  rw [show _extractHistoricalData [[("", JsValue.vNum (.fin 500)), ("2024-01-01", JsValue.vStr "1")]]
      ["2024-01-01"] = .error () from by decide] at hm
  cases hm

/-- C7 (amended): on every row sequence whose metric-name chain never
yields a truthy non-string (so the extractor does not throw),
`_extractHistoricalData` returns a mapping such that: every entry's name
comes from a retained row (name non-empty and neither `"Quarter"` nor
`"Episode"`), its series is non-empty and equals the series of the last
row with that name whose series is non-empty — the series being built by
iterating the periods in reversed (ascending) order and keeping exactly
the cells that parse numerically (`buildSeries`) — and conversely every
retained row with a non-empty series puts its name in the mapping.  A
retained row whose series is empty writes nothing (and hence does not
overwrite an earlier entry). -/
theorem c7_extract_historical (rows : List Row) (cols : List String)
    (hstr : ∀ r ∈ rows, ¬(metricNameOf r = .error ())) :
    ∃ m, _extractHistoricalData rows cols = .ok m ∧
      (∀ name series, histLookup m name = some series →
        retainedMetricName name = true ∧ ¬(series = []) ∧
        ∃ pre r post, rows = pre ++ r :: post ∧ metricNameOf r = .ok name ∧
          series = buildSeries r cols ∧
          (∀ r' ∈ post, contributingRow r' cols name = false)) ∧
      (∀ r ∈ rows, ∀ name, metricNameOf r = .ok name → retainedMetricName name = true →
        ¬(buildSeries r cols = []) → ∃ s, histLookup m name = some s) := by
  obtain ⟨m, hok, hprops⟩ := extractHistAux_lookup cols rows [] hstr
  refine ⟨m, hok, ?_, ?_⟩
  · intro name series hlook
    by_cases hex : ∃ r ∈ rows, contributingRow r cols name = true
    · obtain ⟨pre, r, post, hsplit, hc, hlook2, hpost⟩ := (hprops name).2 hex
      obtain ⟨hname, hret, hne⟩ := contributingRow_spec hc
      rw [hlook] at hlook2
      injection hlook2 with hs
      exact ⟨hret, hs ▸ hne, pre, r, post, hsplit, hname, hs, hpost⟩
    · have hall : ∀ r ∈ rows, contributingRow r cols name = false := by
        intro r hr
        cases hcr : contributingRow r cols name with
        | false => rfl
        | true => exact absurd ⟨r, hr, hcr⟩ hex
      rw [(hprops name).1 hall] at hlook
      cases hlook
  · intro r hr name hname hret hne
    obtain ⟨pre, r2, post, -, hc2, hlook2, -⟩ :=
      (hprops name).2 ⟨r, hr, contributingRow_of_parts hname hret hne⟩
    exact ⟨buildSeries r2 cols, hlook2⟩

/-- Witness for the amended C7 at a one-row input with a string metric
label: the extractor succeeds and the properties hold. -/
theorem c7_extract_historical_witness :
    ∃ m, _extractHistoricalData [[("", JsValue.vStr "Revenue"), ("2024-01-01", JsValue.vStr "5")]]
      ["2024-01-01"] = .ok m ∧
      (∀ name series, histLookup m name = some series →
        retainedMetricName name = true ∧ ¬(series = []) ∧
        ∃ pre r post, [[("", JsValue.vStr "Revenue"), ("2024-01-01", JsValue.vStr "5")]] = pre ++ r :: post ∧
          metricNameOf r = .ok name ∧
          series = buildSeries r ["2024-01-01"] ∧
          (∀ r' ∈ post, contributingRow r' ["2024-01-01"] name = false)) ∧
      (∀ r ∈ [[("", JsValue.vStr "Revenue"), ("2024-01-01", JsValue.vStr "5")]],
        ∀ name, metricNameOf r = .ok name → retainedMetricName name = true →
        ¬(buildSeries r ["2024-01-01"] = []) → ∃ s, histLookup m name = some s) :=
  c7_extract_historical [[("", JsValue.vStr "Revenue"), ("2024-01-01", JsValue.vStr "5")]]
    ["2024-01-01"] (by decide)
